import Mathlib

/-!
Verification of the citation-resolution pipeline of the most-cited-papers
repository.  The Go source is shallowly embedded: pure string manipulation is
modelled on `List Char` mirroring the `strings` package functions used by the
code, HTML documents are modelled as records holding exactly the pieces the
goquery selectors extract, HTTP fetches are modelled as an oracle value of an
inductive outcome type, and `log.Fatalf` (process termination) is modelled by
the `fatal` constructor of a step-result type that propagates through the
pipeline.  SQLite rows are modelled with `Option` columns and the cache as an
association list keyed by URL.
-/

/-! ## Go `strings` primitives (on `List Char`) -/

/-- `strings.TrimSpace`: drop whitespace from both ends. -/
def trimChars (l : List Char) : List Char :=
  ((l.dropWhile Char.isWhitespace).reverse.dropWhile Char.isWhitespace).reverse

/-- `strings.ToLower`, character-wise. -/
def lowerChars (l : List Char) : List Char := l.map Char.toLower

/-- `strings.Contains hay needle`: does `needle` occur as a contiguous
substring of `hay`?  (Go computes `Index >= 0`; this is the same predicate.) -/
def containsList (needle : List Char) : List Char → Bool
  | [] => needle.isEmpty
  | c :: t => needle.isPrefixOf (c :: t) || containsList needle t

/-- `strings.TrimPrefix s pre`. -/
def dropPreList (pre l : List Char) : List Char :=
  if pre.isPrefixOf l then l.drop pre.length else l

/-- `strings.TrimSuffix s suf`. -/
def trimSuffixList (suf l : List Char) : List Char :=
  if suf.isSuffixOf l then l.take (l.length - suf.length) else l

/-- `strings.Replace s old new 1`: replace the first occurrence only.
All call sites of the repository use a non-empty `pat`. -/
def replaceOnceList (pat rep : List Char) : List Char → List Char
  | [] => []
  | c :: t =>
    if pat.isPrefixOf (c :: t) then rep ++ (c :: t).drop pat.length
    else c :: replaceOnceList pat rep t

/-- Fuel-indexed worker for `strings.ReplaceAll` (structural recursion so
that the kernel can evaluate it; the public wrapper supplies enough fuel,
and every recursive call shortens the list by at least one character). -/
def replaceAllAux (pat rep : List Char) : Nat → List Char → List Char
  | _, [] => []
  | 0, l => l
  | fuel + 1, c :: t =>
    if pat.isPrefixOf (c :: t) ∧ pat ≠ [] then
      rep ++ replaceAllAux pat rep fuel ((c :: t).drop pat.length)
    else
      c :: replaceAllAux pat rep fuel t

/-- `strings.ReplaceAll s old new`: replace every non-overlapping occurrence,
left to right, not rescanning the replacement.  All call sites of the
repository use a non-empty `pat`. -/
def replaceAllList (pat rep : List Char) (l : List Char) : List Char :=
  replaceAllAux pat rep l.length l

/-- Fuel-indexed worker for `strings.Split` (structural recursion so that
the kernel can evaluate it; the public wrapper supplies enough fuel). -/
def splitSepAux (sep : List Char) : Nat → List Char → List (List Char)
  | _, [] => [[]]
  | 0, l => [l]
  | fuel + 1, c :: t =>
    if sep.isPrefixOf (c :: t) ∧ sep ≠ [] then
      [] :: splitSepAux sep fuel ((c :: t).drop sep.length)
    else
      match splitSepAux sep fuel t with
      | [] => [[c]]
      | h :: rest => (c :: h) :: rest

/-- `strings.Split s sep` for non-empty `sep`: the pieces of `s` around every
non-overlapping occurrence of `sep`, scanned left to right (`n+1` pieces for
`n` occurrences; empty pieces are kept, as in Go). -/
def splitSepList (sep : List Char) (l : List Char) : List (List Char) :=
  splitSepAux sep l.length l

/-- `strconv.Atoi`: optional sign, then decimal digits; empty or non-digit
input is an error (`none`), as is 64-bit overflow. -/
def goAtoi (s : String) : Option Int :=
  let core : Bool → List Char → Option Int := fun neg ds =>
    if ds ≠ [] ∧ ds.all Char.isDigit then
      let v : Nat := ds.foldl (fun a c => a * 10 + (c.toNat - '0'.toNat)) 0
      let i : Int := if neg then -(v : Int) else (v : Int)
      if -9223372036854775808 ≤ i ∧ i ≤ 9223372036854775807 then some i else none
    else none
  match s.data with
  | [] => none
  | c :: t =>
    if c = '-' then core true t
    else if c = '+' then core false t
    else core false (c :: t)

/-- One hexadecimal digit, upper case, as used by `net/url` escaping. -/
def hexDigit (n : Nat) : Char :=
  if n < 10 then Char.ofNat ('0'.toNat + n) else Char.ofNat ('A'.toNat + (n - 10))

/-- UTF-8 encoding of one code point, as byte values. -/
def utf8Bytes (c : Char) : List Nat :=
  let n := c.toNat
  if n < 0x80 then [n]
  else if n < 0x800 then [0xC0 + n / 0x40, 0x80 + n % 0x40]
  else if n < 0x10000 then
    [0xE0 + n / 0x1000, 0x80 + (n / 0x40) % 0x40, 0x80 + n % 0x40]
  else
    [0xF0 + n / 0x40000, 0x80 + (n / 0x1000) % 0x40, 0x80 + (n / 0x40) % 0x40,
      0x80 + n % 0x40]

/-- `url.QueryEscape` on one character: unreserved characters kept, space
becomes `+`, everything else percent-encoded byte-wise. -/
def escapeChar (c : Char) : List Char :=
  if c.isAlpha || c.isDigit || c = '-' || c = '_' || c = '.' || c = '~' then [c]
  else if c = ' ' then ['+']
  else (utf8Bytes c).foldr (fun b acc => '%' :: hexDigit (b / 16) :: hexDigit (b % 16) :: acc) []

/-- `url.QueryEscape`. -/
def queryEscape (s : String) : String :=
  ⟨s.data.foldr (fun c acc => escapeChar c ++ acc) []⟩

/-- String-level wrapper for `strings.TrimSpace`. -/
def strTrim (s : String) : String := ⟨trimChars s.data⟩

/-- String-level wrapper for `strings.Contains`. -/
def strContains (hay needle : String) : Bool := containsList needle.data hay.data

/-- String-level wrapper for `strings.HasPrefix`. -/
def strHasPre (s pre : String) : Bool := pre.data.isPrefixOf s.data

/-! ## Fetch and process model

An HTTP GET either fails before a response (request construction or network
error), or yields a status code together with the result of parsing the body.
`log.Fatalf` terminates the whole process; `StepResult.fatal` models this and
propagates through every caller. -/

/-- Outcome of `goquery.NewDocumentFromReader` on a response body. -/
inductive ParseOutcome (δ : Type) : Type
  | failed
  | parsed (doc : δ)
deriving DecidableEq, Repr

/-- Outcome of one HTTP GET (request creation, transport, status, body). -/
inductive FetchResult (δ : Type) : Type
  | reqError
  | netError
  | response (code : Nat) (body : ParseOutcome δ)
deriving DecidableEq, Repr

/-- Result of a computation that may call `log.Fatalf` (process exit). -/
inductive StepResult (α : Type) : Type
  | fatal (msg : String)
  | ok (val : α)
deriving DecidableEq, Repr

instance : Monad StepResult where
  pure := .ok
  bind := fun m f => match m with | .fatal s => .fatal s | .ok a => f a

/-! ## URL classifier and arXiv page handling (arxiv.go) -/

/-- `IsArxivURL`: the URL contains the arXiv domain. -/
def IsArxivURL (url : String) : Bool := strContains url "arxiv.org"

/-- `IsArxivPDF`: the URL contains the arXiv PDF path. -/
def IsArxivPDF (url : String) : Bool := strContains url "arxiv.org/pdf"

/-- `ConvertPDFtoAbsURL`: `strings.Replace(url, "/pdf/", "/abs/", 1)` followed
by `strings.TrimSuffix(url, ".pdf")`. -/
def ConvertPDFtoAbsURL (pdfURL : String) : String :=
  ⟨trimSuffixList ".pdf".data (replaceOnceList "/pdf/".data "/abs/".data pdfURL.data)⟩

/-- Character class `[0-9v.]` of the arXiv-ID regexes. -/
def isIdChar (c : Char) : Bool := c.isDigit || c = 'v' || c = '.'

/-- The literal `arxiv.org/abs/` of the regex. -/
def absPat : List Char := "arxiv.org/abs/".data

/-- The literal `arxiv.org/pdf/` of the regex. -/
def pdfPat : List Char := "arxiv.org/pdf/".data

/-- One attempt of the regex `arxiv\.org/(?:abs|pdf)/([0-9v.]+)` at the start
of `l`: the capture group is the greedy, non-empty run of `[0-9v.]` characters
after the literal. -/
def matchIdAt (l : List Char) : Option (List Char) :=
  if absPat.isPrefixOf l then
    let run := (l.drop absPat.length).takeWhile isIdChar
    if run.isEmpty then none else some run
  else if pdfPat.isPrefixOf l then
    let run := (l.drop pdfPat.length).takeWhile isIdChar
    if run.isEmpty then none else some run
  else none

/-- `regexp.FindStringSubmatch`: leftmost match of the pattern. -/
def scanArxivId : List Char → Option (List Char)
  | [] => none
  | c :: t =>
    match matchIdAt (c :: t) with
    | some r => some r
    | none => scanArxivId t

/-- `GetArxivID`: capture group of the leftmost match of
`arxiv\.org/(?:abs|pdf)/([0-9v.]+)`, or `""` when there is none. -/
def GetArxivID (arxivURL : String) : String :=
  match scanArxivId arxivURL.data with
  | some r => ⟨r⟩
  | none => ""

/-- `GetDirectScholarURL`. -/
def GetDirectScholarURL (arxivID : String) : String :=
  "https://scholar.google.com/scholar?q=arxiv:" ++ arxivID

/-- The abstract container of an arXiv page (`blockquote.abstract.mathjax`):
`descriptor` is the text of the `span.descriptor` sub-element that
`GetArxivSummary` removes, `rest` the remaining text content of the block. -/
structure ArxivBlock : Type where
  descriptor : Option String
  rest : String
deriving DecidableEq, Repr

/-- A fetched arXiv page, as seen by the selectors of `GetArxivSummary`. -/
structure ArxivDoc : Type where
  abstractBlock : Option ArxivBlock
deriving DecidableEq, Repr

/-- `GetArxivSummary` (arxiv.go): fetch the page, find
`blockquote.abstract.mathjax`, remove `span.descriptor`, return the trimmed
text; every failure - including a missing abstract block - is an error.
This function has no 429 branch in the source. -/
def GetArxivSummary (fr : FetchResult ArxivDoc) : Except String String :=
  match fr with
  | .reqError => .error "request error"
  | .netError => .error "network error"
  | .response code body =>
    if code ≠ 200 then .error "failed to fetch arXiv page"
    else
      match body with
      | .failed => .error "parse error"
      | .parsed doc =>
        match doc.abstractBlock with
        | some b => .ok (strTrim b.rest)
        | none => .error "abstract not found on page"

/-! ## Google Scholar (google_scholar.go) -/

/-- A Google Scholar page as seen by `FetchCitationsFromScholar`:
the texts of the `.gs_fl a` anchors, in document order. -/
structure ScholarPage : Type where
  flLinkTexts : List String
deriving DecidableEq, Repr

/-- The `.Each` loop over `.gs_fl a` anchors: a link whose text has prefix
`"Cited by"` and whose remainder after `"Cited by "` parses with
`strconv.Atoi` overwrites the citation pointer; later matches win. -/
def citedByFold (init : Option Int) (texts : List String) : Option Int :=
  texts.foldl
    (fun acc t =>
      if strHasPre t "Cited by" then
        match goAtoi ⟨dropPreList "Cited by ".data t.data⟩ with
        | some n => some n
        | none => acc
      else acc)
    init

/-- `FetchCitationsFromScholar`: every failure before a parsed 200 page
returns `(nil, nil)`; HTTP 429 calls `log.Fatalf`; otherwise the citation
pointer is whatever the `Cited by` scan of `.gs_fl a` found.  The error
result is always `nil`, so it is not modelled. -/
def FetchCitationsFromScholar (fr : FetchResult ScholarPage) : StepResult (Option Int) :=
  match fr with
  | .reqError => .ok none
  | .netError => .ok none
  | .response code body =>
    if code = 429 then
      .fatal "Rate limited by Google Scholar. Please wait a few minutes before trying again."
    else if code ≠ 200 then .ok none
    else
      match body with
      | .failed => .ok none
      | .parsed page => .ok (citedByFold none page.flLinkTexts)

/-- One `.gs_ri` search result as seen by `SearchGoogleScholar`: the text of
`.gs_rt`, the texts of the `.gs_fl a` anchors, the texts of the
`.gs_fma_snp` elements and the `href` values of the `.gs_rt a` anchors. -/
structure ScholarEntry : Type where
  rtText : String
  flLinkTexts : List String
  snpTexts : List String
  rtHrefs : List String
deriving DecidableEq, Repr

/-- A Scholar search results page: the `.gs_ri` entries in document order. -/
structure ScholarDoc : Type where
  results : List ScholarEntry
deriving DecidableEq, Repr

/-- The title comparison of `SearchGoogleScholar`: both the trimmed result
title and the query title are quote-stripped, trimmed and lowercased, and the
entry matches when either cleaned string contains the other. -/
def matchesTitle (searchTitle : String) (e : ScholarEntry) : Bool :=
  let resultTitle := trimChars e.rtText.data
  let cleanResult := lowerChars (trimChars (replaceAllList ['"'] [] resultTitle))
  let cleanSearch := lowerChars (trimChars (replaceAllList ['"'] [] searchTitle.data))
  containsList cleanSearch cleanResult || containsList cleanResult cleanSearch

/-- The mutable state of the `results.Each` loop of `SearchGoogleScholar`. -/
structure ScanState : Type where
  citationPtr : Option Int
  abstract : String
  bestMatchURL : String
  foundMatch : Bool
deriving DecidableEq, Repr

/-- Initial loop state: `citationPtr = nil`, `abstract = ""`,
`bestMatchURL = ""`, `foundMatch = false`. -/
def initScanState : ScanState := ⟨none, "", "", false⟩

/-- One iteration of the `results.Each` loop: a found match short-circuits;
otherwise the first title-matching entry records its `Cited by` count, its
snippet texts (each overwriting the previous) and its `.gs_rt a` hrefs (last
one wins), and sets `foundMatch`. -/
def scanStep (searchTitle : String) (st : ScanState) (e : ScholarEntry) : ScanState :=
  if st.foundMatch then st
  else if matchesTitle searchTitle e then
    { citationPtr := citedByFold st.citationPtr e.flLinkTexts
      abstract := e.snpTexts.foldl (fun _ t => strTrim t) st.abstract
      bestMatchURL := e.rtHrefs.foldl (fun _ h => h) st.bestMatchURL
      foundMatch := true }
  else st

/-- The whole `results.Each` loop. -/
def scanResults (searchTitle : String) (rs : List ScholarEntry) : ScanState :=
  rs.foldl (scanStep searchTitle) initScanState

/-- The search query of `SearchGoogleScholar`: the title in quotes, plus
`author:"<first>"` when an author list is supplied. -/
def mkSearchQuery (title : String) (authors : List String) : String :=
  let q := "\"" ++ title ++ "\""
  match authors with
  | [] => q
  | a :: _ => q ++ " author:\"" ++ a ++ "\""

/-- The search URL of `SearchGoogleScholar`. -/
def mkSearchURL (title : String) (authors : List String) : String :=
  "https://scholar.google.com/scholar?q=" ++ queryEscape (mkSearchQuery title authors)

/-- `SearchGoogleScholar` (google_scholar.go, richest variant): build the
search URL; every failure before a parsed 200 page returns
`(searchURL, nil, "", nil)`; HTTP 429 calls `log.Fatalf`; otherwise scan the
`.gs_ri` entries for the first title match, prefer the matched entry URL over
the search URL, and - when a match was found with no citation count but with
an entry URL - fetch the entry page once through
`FetchCitationsFromScholar`.  `pageFetch` is the oracle for that second
request. -/
def SearchGoogleScholar (title : String) (authors : List String)
    (searchFetch : FetchResult ScholarDoc)
    (pageFetch : String → FetchResult ScholarPage) :
    StepResult (String × Option Int × String × Option String) :=
  let searchURL := mkSearchURL title authors
  match searchFetch with
  | .reqError => .ok (searchURL, none, "", none)
  | .netError => .ok (searchURL, none, "", none)
  | .response code body =>
    if code = 429 then
      .fatal "Rate limited by Google Scholar. Please wait a few minutes before trying again."
    else if code ≠ 200 then .ok (searchURL, none, "", none)
    else
      match body with
      | .failed => .ok (searchURL, none, "", none)
      | .parsed doc =>
        let st := scanResults title doc.results
        let finalURL := if st.bestMatchURL ≠ "" then st.bestMatchURL else searchURL
        if st.foundMatch ∧ st.citationPtr = none ∧ st.bestMatchURL ≠ "" then
          match FetchCitationsFromScholar (pageFetch st.bestMatchURL) with
          | .fatal m => .fatal m
          | .ok c => .ok (finalURL, c, st.abstract, none)
        else .ok (finalURL, st.citationPtr, st.abstract, none)

/-- A paper page as seen by the selector chain of `GetGoogleScholarURL`:
`href` of the first `a[href*='scholar.google.com']`, of the first `a.gs`,
and of the first `a[href*='scholar.google']`. -/
structure PaperPageDoc : Type where
  aclScholarHref : Option String
  gsClassHref : Option String
  anyScholarHref : Option String
deriving DecidableEq, Repr

/-- One attempt of the regex `arxiv\.org/abs/([0-9v.]+)` at the start of
`l` (the abs-only regex of `GetGoogleScholarURL`). -/
def matchAbsIdAt (l : List Char) : Option (List Char) :=
  if absPat.isPrefixOf l then
    let run := (l.drop absPat.length).takeWhile isIdChar
    if run.isEmpty then none else some run
  else none

/-- Leftmost match of `arxiv\.org/abs/([0-9v.]+)`. -/
def scanAbsId : List Char → Option (List Char)
  | [] => none
  | c :: t =>
    match matchAbsIdAt (c :: t) with
    | some r => some r
    | none => scanAbsId t

/-- `GetGoogleScholarURL`: fetch the paper page; HTTP 429 calls
`log.Fatalf`; non-200 and parse failures return an error; then try the three
selector patterns in order, and finally construct a Scholar URL from the
arXiv abs ID when the page URL is an arXiv URL. -/
def GetGoogleScholarURL (paperURL : String) (fr : FetchResult PaperPageDoc) :
    StepResult (String × Option String) :=
  match fr with
  | .reqError => .ok ("", some "request error")
  | .netError => .ok ("", some "network error")
  | .response code body =>
    if code = 429 then
      .fatal ("Rate limited by " ++ paperURL ++ ". Please wait a few minutes before trying again.")
    else if code ≠ 200 then .ok ("", some "failed to fetch paper page")
    else
      match body with
      | .failed => .ok ("", some "parse error")
      | .parsed doc =>
        match doc.aclScholarHref with
        | some h => .ok (h, none)
        | none =>
          match doc.gsClassHref with
          | some h => .ok (h, none)
          | none =>
            match doc.anyScholarHref with
            | some h => .ok (h, none)
            | none =>
              if strContains paperURL "arxiv.org" then
                match scanAbsId paperURL.data with
                | some id => .ok ("https://scholar.google.com/scholar?q=arxiv:" ++ ⟨id⟩, none)
                | none => .ok ("", none)
              else .ok ("", none)

/-! ## ACL Anthology (acl.go) -/

/-- An ACL Anthology page as seen by `GetACLInfo`: the text of the
`div.card-body.acl-abstract span` element when present, and the texts of the
`p.lead a` anchors. -/
structure ACLDoc : Type where
  abstractSpanText : Option String
  authorTexts : List String
deriving DecidableEq, Repr

/-- `IsACLURL`. -/
def IsACLURL (url : String) : Bool := strContains url "aclanthology.org"

/-- `GetACLInfo`: fetch the page; HTTP 429 calls `log.Fatalf`; other
failures return `("", nil, err)`; on a parsed 200 page return the trimmed
abstract (empty when the container is missing), the non-empty trimmed author
texts, and - when zero authors were found - the abstract together with the
`no authors found` error. -/
def GetACLInfo (fr : FetchResult ACLDoc) :
    StepResult (String × List String × Option String) :=
  match fr with
  | .reqError => .ok ("", [], some "request error")
  | .netError => .ok ("", [], some "network error")
  | .response code body =>
    if code = 429 then
      .fatal "Rate limited by ACL Anthology. Please wait a few minutes before trying again."
    else if code ≠ 200 then .ok ("", [], some "failed to fetch ACL page")
    else
      match body with
      | .failed => .ok ("", [], some "parse error")
      | .parsed doc =>
        let abs := match doc.abstractSpanText with
          | some t => strTrim t
          | none => ""
        let authors := doc.authorTexts.foldl
          (fun acc a => let a := strTrim a; if a ≠ "" then acc ++ [a] else acc) []
        if authors = [] then .ok (abs, [], some "no authors found on ACL page")
        else .ok (abs, authors, none)

/-- `GetACLAbstract`: abstract and error of `GetACLInfo`. -/
def GetACLAbstract (fr : FetchResult ACLDoc) : StepResult (String × Option String) := do
  let (abs, _, err) ← GetACLInfo fr
  pure (abs, err)

/-- `GetACLAuthors`: authors and error of `GetACLInfo`. -/
def GetACLAuthors (fr : FetchResult ACLDoc) : StepResult (List String × Option String) := do
  let (_, as, err) ← GetACLInfo fr
  pure (as, err)

/-! ## Pipeline and cache (main program, richest variant) -/

/-- The `Paper` struct.  `Citations` is a plain Go `int`: the zero value
doubles as the "no citation count" marker throughout the program. -/
structure Paper : Type where
  Title : String
  URL : String
  ArxivAbsURL : String
  GoogleScholarURL : String
  ArxivSummary : String
  Citations : Int
deriving DecidableEq, Repr

/-- One row of the `paper_cache` table (the `timestamp` column is not read
back and not modelled).  `citations` is a nullable INTEGER column. -/
structure CacheRow : Type where
  title : String
  citations : Option Int
  arxiv_abs_url : String
  google_scholar_url : String
  arxiv_summary : String
deriving DecidableEq, Repr

/-- The cache as an association list keyed by URL (TEXT PRIMARY KEY). -/
def Cache : Type := List (String × CacheRow)

/-- The value bound to the `citations` column by `saveCitation`:
`paper.Citations` when it is non-zero, SQL NULL otherwise. -/
def savedCitationValue (paper : Paper) : Option Int :=
  if paper.Citations ≠ 0 then some paper.Citations else none

/-- `saveCitation`: INSERT OR REPLACE of the projected row, keyed by URL. -/
def saveCitation (c : Cache) (paper : Paper) : Cache :=
  (paper.URL,
    { title := paper.Title
      citations := savedCitationValue paper
      arxiv_abs_url := paper.ArxivAbsURL
      google_scholar_url := paper.GoogleScholarURL
      arxiv_summary := paper.ArxivSummary }) ::
    (c.filter (fun e => e.1 ≠ paper.URL))

/-- `getCitation`: look the URL up; absent row yields `nil`; a NULL
`citations` column leaves `Citations` at the zero value. -/
def getCitation (c : Cache) (url : String) : Option Paper :=
  match List.lookup url c with
  | none => none
  | some r =>
    some
      { Title := r.title
        URL := url
        ArxivAbsURL := r.arxiv_abs_url
        GoogleScholarURL := r.google_scholar_url
        ArxivSummary := r.arxiv_summary
        Citations := match r.citations with | some n => n | none => 0 }

/-- The comparator of `sort.Slice` in `main`: papers with `Citations == 0`
(the "nil citations" comment in the source) go last, everything else sorts
by citation count descending. -/
def sortLess (pi pj : Paper) : Bool :=
  if pi.Citations = 0 ∧ pj.Citations = 0 then false
  else if pi.Citations = 0 then false
  else if pj.Citations = 0 then true
  else pi.Citations > pj.Citations

/-- The citation cell of the printed report: the number when
`Citations != 0`, the string `N/A` otherwise. -/
def displayCitations (paper : Paper) : String :=
  if paper.Citations ≠ 0 then toString paper.Citations else "N/A"

/-- `if citationPtr != nil { paper.Citations = *citationPtr }`. -/
def applyCitationPtr (paper : Paper) (ptr : Option Int) : Paper :=
  match ptr with
  | some n => { paper with Citations := n }
  | none => paper

/-- `summary, err := GetArxivSummary(...); if err == nil && summary != ""
{ paper.ArxivSummary = summary }`. -/
def applySummary (paper : Paper) (r : Except String String) : Paper :=
  match r with
  | .ok s => if s ≠ "" then { paper with ArxivSummary := s } else paper
  | .error _ => paper

/-- The author-segment processing of `processNonArxivPaper`: an `et al.`
segment collapses to the single token with `et al.` removed and the result
trimmed; otherwise the segment is split on commas and each piece is trimmed,
has one leading `and ` removed, and is kept when non-empty. -/
def segmentAuthors (authorPart : List Char) : List String :=
  if containsList "et al.".data authorPart then
    [⟨trimChars (replaceAllList "et al.".data [] authorPart)⟩]
  else
    (splitSepList [','] authorPart).foldl
      (fun acc a =>
        let a1 := trimChars a
        let a2 := dropPreList "and ".data a1
        if a2 ≠ [] then acc ++ [(⟨a2⟩ : String)] else acc)
      []

/-- The title heuristic of `processNonArxivPaper`: `strings.Split` the title
on `" - "`; when more than one piece results, derive the authors from
`titleParts[0]`; otherwise no authors. -/
def extractAuthorsFromTitle (title : String) : List String :=
  match splitSepList " - ".data title.data with
  | p :: _ :: _ => segmentAuthors p
  | _ => []

/-- The network environment of one paper resolution: one oracle per fetched
page.  `GetACLInfo` is invoked twice on the same URL (once through
`GetACLAbstract`, once through `GetACLAuthors`); both see `aclFetch`. -/
structure Env : Type where
  arxivFetch : FetchResult ArxivDoc
  aclFetch : FetchResult ACLDoc
  paperPageFetch : FetchResult PaperPageDoc
  searchFetch : FetchResult ScholarDoc
  pageFetch : String → FetchResult ScholarPage

/-- `processArxivPaper`: store the abs URL, best-effort abstract, resolve
the Scholar link (an error from `GetGoogleScholarURL` stores the URL and
returns `nil`), fall back to the constructed `arxiv:<id>` search URL, then
fetch the citation count best-effort.  Returns the mutated paper and the Go
error value. -/
def processArxivPaper (env : Env) (p0 : Paper) : StepResult (Paper × Option String) := do
  let p1 := { p0 with ArxivAbsURL := p0.URL }
  let p1 := applySummary p1 (GetArxivSummary env.arxivFetch)
  let (schURL, err) ← GetGoogleScholarURL p1.ArxivAbsURL env.paperPageFetch
  if err ≠ none then
    pure ({ p1 with GoogleScholarURL := schURL }, none)
  else if schURL = "" then
    let arxivID := GetArxivID p1.ArxivAbsURL
    if arxivID ≠ "" then
      let p2 := { p1 with GoogleScholarURL := GetDirectScholarURL arxivID }
      let c ← FetchCitationsFromScholar (env.pageFetch p2.GoogleScholarURL)
      pure (applyCitationPtr p2 c, none)
    else
      pure (p1, some "couldn't construct Google Scholar URL")
  else
    let p2 := { p1 with GoogleScholarURL := schURL }
    let c ← FetchCitationsFromScholar (env.pageFetch p2.GoogleScholarURL)
    pure (applyCitationPtr p2 c, none)

/-- `processNonArxivPaper` (richest variant): best-effort abstract from
arXiv or ACL, authors from the ACL page or else from the title heuristic,
then `SearchGoogleScholar` with title and authors; the entry URL is stored,
a non-nil citation pointer is copied into `Citations`, and a search abstract
fills `ArxivSummary` only when it is still empty. -/
def processNonArxivPaper (env : Env) (p0 : Paper) : StepResult Paper := do
  let p1 ←
    if IsArxivURL p0.URL then
      let pa :=
        if IsArxivPDF p0.URL then { p0 with ArxivAbsURL := ConvertPDFtoAbsURL p0.URL }
        else { p0 with ArxivAbsURL := p0.URL }
      pure (if pa.ArxivAbsURL ≠ "" then applySummary pa (GetArxivSummary env.arxivFetch) else pa)
    else if IsACLURL p0.URL then do
      let (abs, err) ← GetACLAbstract env.aclFetch
      pure (if err = none ∧ abs ≠ "" then { p0 with ArxivSummary := abs } else p0)
    else
      pure p0
  let aclAuthors ←
    if IsACLURL p0.URL then do
      let (as, err) ← GetACLAuthors env.aclFetch
      pure (if err = none ∧ as ≠ [] then as else [])
    else
      pure ([] : List String)
  let authors := if aclAuthors = [] then extractAuthorsFromTitle p0.Title else aclAuthors
  let (schURL, citePtr, schAbs, _err) ←
    SearchGoogleScholar p0.Title authors env.searchFetch env.pageFetch
  let p2 := { p1 with GoogleScholarURL := schURL }
  let p3 := applyCitationPtr p2 citePtr
  pure (if p3.ArxivSummary = "" ∧ schAbs ≠ "" then { p3 with ArxivSummary := schAbs } else p3)

/-- The per-paper branch of the processing loop of `main` on a cache miss:
arXiv abstract pages go through `processArxivPaper` with
`processNonArxivPaper` as fallback on error (on the already part-mutated
paper, as in the source); everything else goes directly to
`processNonArxivPaper`.  The sleep, logging and cache write are not
modelled here. -/
def processOnePaper (env : Env) (p : Paper) : StepResult Paper :=
  if IsArxivURL p.URL && !IsArxivPDF p.URL then do
    let (pa, err) ← processArxivPaper env p
    match err with
    | none => pure pa
    | some _ => processNonArxivPaper env pa
  else
    processNonArxivPaper env p

/-- The processing loop of `main` over the parsed papers (fresh path): one
paper fully processed before the next; a `log.Fatalf` anywhere aborts the
run with the papers after it unprocessed. -/
def runFreshPipeline (env : String → Env) : List Paper → StepResult (List Paper)
  | [] => .ok []
  | p :: ps => do
    let p1 ← processOnePaper (env p.URL) p
    let rest ← runFreshPipeline env ps
    pure (p1 :: rest)

/-- Modelled from the claim wording of C9: an arXiv id is a non-empty string
of digits and dots, optionally followed by a version suffix `v` plus
digits. -/
def claimArxivIdShape (s : String) : Prop :=
  (s.data ≠ [] ∧ ∀ c ∈ s.data, c.isDigit ∨ c = '.') ∨
  (∃ base n : List Char, s.data = base ++ 'v' :: n ∧ base ≠ [] ∧
    (∀ c ∈ base, c.isDigit ∨ c = '.') ∧ n ≠ [] ∧ ∀ c ∈ n, c.isDigit)

/-- The loop state produced by the first title-matching entry when the scan
reaches it in the initial state. -/
def matchedScanState (e : ScholarEntry) : ScanState :=
  { citationPtr := citedByFold none e.flLinkTexts
    abstract := e.snpTexts.foldl (fun _ t => strTrim t) ""
    bestMatchURL := e.rtHrefs.foldl (fun _ h => h) ""
    foundMatch := true }

/-- An environment whose Scholar search responds with HTTP 429 and whose
other oracles fail before a response. -/
def rateLimitedEnv : Env :=
  { arxivFetch := .reqError
    aclFetch := .reqError
    paperPageFetch := .reqError
    searchFetch := .response 429 .failed
    pageFetch := fun _ => .reqError }

/-! ## Helper lemmas -/

theorem strMk_data (s : String) : (⟨s.data⟩ : String) = s := by
  cases s
  rfl

theorem containsList_cons_false {pat : List Char} {c : Char} {t : List Char}
    (h : containsList pat (c :: t) = false) :
    pat.isPrefixOf (c :: t) = false ∧ containsList pat t = false := by
  rw [containsList, Bool.or_eq_false_iff] at h
  exact h

theorem replaceOnceList_of_not_contains (pat rep : List Char) (l : List Char)
    (h : containsList pat l = false) : replaceOnceList pat rep l = l := by
  induction l with
  | nil => rfl
  | cons c t ih =>
    obtain ⟨h1, h2⟩ := containsList_cons_false h
    rw [replaceOnceList, if_neg (by simp [h1]), ih h2]

theorem trimSuffixList_of_not_suffix (suf l : List Char)
    (h : suf.isSuffixOf l = false) : trimSuffixList suf l = l := by
  simp [trimSuffixList, h]

theorem getCitation_saveCitation (c : Cache) (p : Paper) :
    getCitation (saveCitation c p) p.URL = some p := by
  have hlook : List.lookup p.URL (saveCitation c p) = some
      { title := p.Title, citations := savedCitationValue p,
        arxiv_abs_url := p.ArxivAbsURL, google_scholar_url := p.GoogleScholarURL,
        arxiv_summary := p.ArxivSummary } := by
    simp [saveCitation, List.lookup]
  rw [getCitation, hlook]
  obtain ⟨T, U, A, G, S, Ci⟩ := p
  simp only
  congr 1
  by_cases h : Ci = 0
  · simp [savedCitationValue, h]
  · simp [savedCitationValue, h]

theorem lookup_saveCitation_citations (c : Cache) (p : Paper) :
    (List.lookup p.URL (saveCitation c p)).map CacheRow.citations =
      some (savedCitationValue p) := by
  simp [saveCitation, List.lookup]

theorem scanStep_of_found (t : String) (st : ScanState) (e : ScholarEntry)
    (h : st.foundMatch = true) : scanStep t st e = st := by
  simp [scanStep, h]

theorem foldl_scanStep_of_found (t : String) (st : ScanState)
    (h : st.foundMatch = true) (rs : List ScholarEntry) :
    rs.foldl (scanStep t) st = st := by
  induction rs with
  | nil => rfl
  | cons e rs ih => rw [List.foldl_cons, scanStep_of_found t st e h, ih]

theorem scanResults_eq_find (t : String) (rs : List ScholarEntry) :
    scanResults t rs =
      (match rs.find? (matchesTitle t) with
        | some e => matchedScanState e
        | none => initScanState) := by
  induction rs with
  | nil => rfl
  | cons e rs ih =>
    by_cases hm : matchesTitle t e = true
    · have hstep : scanStep t initScanState e = matchedScanState e := by
        simp [scanStep, initScanState, matchedScanState, hm]
      rw [scanResults, List.foldl_cons, hstep,
        foldl_scanStep_of_found t (matchedScanState e) rfl rs]
      simp [List.find?, hm]
    · have hstep : scanStep t initScanState e = initScanState := by
        simp [scanStep, initScanState, hm]
      rw [scanResults, List.foldl_cons, hstep]
      rw [scanResults] at ih
      rw [ih]
      simp [List.find?, Bool.of_not_eq_true hm]

/-! ## Claim theorems -/

/-- C1: the pipeline cannot distinguish a known-zero citation count from an
absent one.  `Paper.Citations` is a plain int, so applying an extracted
citation pointer of `0` produces the same paper state as applying none at
all; that state is persisted with a NULL `citations` column, printed as
`N/A`, and ordered by the sort comparator exactly like a paper whose count
is unknown.  This refutes the claimed invariant that absence is never
conflated with zero in sorting, caching, or display. -/
theorem claim_C1_zero_conflated_with_absent :
    applyCitationPtr ⟨"P", "https://e.com/p", "", "", "", 0⟩ (some 0) =
      applyCitationPtr ⟨"P", "https://e.com/p", "", "", "", 0⟩ none ∧
    savedCitationValue (applyCitationPtr ⟨"P", "https://e.com/p", "", "", "", 0⟩ (some 0)) =
      none ∧
    displayCitations (applyCitationPtr ⟨"P", "https://e.com/p", "", "", "", 0⟩ (some 0)) =
      "N/A" ∧
    saveCitation [] (applyCitationPtr ⟨"P", "https://e.com/p", "", "", "", 0⟩ (some 0)) =
      saveCitation [] (applyCitationPtr ⟨"P", "https://e.com/p", "", "", "", 0⟩ none) ∧
    sortLess (applyCitationPtr ⟨"P", "https://e.com/p", "", "", "", 0⟩ (some 0))
        ⟨"Q", "https://e.com/q", "", "", "", 7⟩ =
      sortLess (applyCitationPtr ⟨"P", "https://e.com/p", "", "", "", 0⟩ none)
        ⟨"Q", "https://e.com/q", "", "", "", 7⟩ :=
  ⟨rfl, rfl, rfl, rfl, rfl⟩

/-- C2: a Scholar entry whose citation container holds only a bare `Cite`
affordance yields an absent citation count, not an authoritative `0`: the
`Cited by` scan of `FetchCitationsFromScholar` finds nothing on such a page,
and `SearchGoogleScholar` - after matching the entry and after its second
request against the entry page (also Cite-only) - still returns a nil
citation pointer. -/
theorem claim_C2_bare_cite_yields_absent :
    FetchCitationsFromScholar (.response 200 (.parsed ⟨["Cite"]⟩)) = .ok none ∧
    SearchGoogleScholar "T" []
        (.response 200 (.parsed ⟨[⟨"T", ["Cite"], [], ["https://paper.x"]⟩]⟩))
        (fun _ => .response 200 (.parsed ⟨["Cite"]⟩)) =
      .ok ("https://paper.x", none, "", none) :=
  ⟨rfl, rfl⟩

/-- C3: cache round-trip.  Saving a paper with citation count 42 and
abstract `Foo.` and reading it back by URL returns the identical paper; and
saving a paper with the absent citation count stores SQL NULL (not 0) in
the `citations` column and reads back as the absent value. -/
theorem claim_C3_cache_roundtrip (c : Cache) (p : Paper) :
    (p.Citations = 42 → p.ArxivSummary = "Foo." →
      getCitation (saveCitation c p) p.URL = some p) ∧
    (p.Citations = 0 →
      (List.lookup p.URL (saveCitation c p)).map CacheRow.citations = some none ∧
      getCitation (saveCitation c p) p.URL = some p) := by
  refine ⟨fun _ _ => getCitation_saveCitation c p, fun h0 => ⟨?_, getCitation_saveCitation c p⟩⟩
  rw [lookup_saveCitation_citations c p, savedCitationValue, if_neg (by simp [h0])]

/-- Witness for C3 at a concrete cache and paper. -/
theorem claim_C3_cache_roundtrip_witness :
    getCitation (saveCitation [] ⟨"T", "u", "", "", "Foo.", 42⟩) "u" =
      some ⟨"T", "u", "", "", "Foo.", 42⟩ ∧
    (List.lookup "u" (saveCitation [] ⟨"T", "u", "", "", "", 0⟩)).map CacheRow.citations =
      some none :=
  ⟨(claim_C3_cache_roundtrip [] ⟨"T", "u", "", "", "Foo.", 42⟩).1 rfl rfl,
    ((claim_C3_cache_roundtrip [] ⟨"T", "u", "", "", "", 0⟩).2 rfl).1⟩

/-- C4: an HTTP 429 anywhere terminates the whole process instead of
surfacing a recoverable RateLimited error: `GetGoogleScholarURL`,
`GetACLInfo` and `SearchGoogleScholar` all call `log.Fatalf` on status 429,
and a run over two papers whose first search is rate-limited aborts with
the second paper never processed. -/
theorem claim_C4_rate_limit_kills_process :
    GetGoogleScholarURL "https://aclanthology.org/x" (.response 429 .failed) =
      .fatal "Rate limited by https://aclanthology.org/x. Please wait a few minutes before trying again." ∧
    GetACLInfo (.response 429 .failed) =
      .fatal "Rate limited by ACL Anthology. Please wait a few minutes before trying again." ∧
    runFreshPipeline (fun _ => rateLimitedEnv)
        [⟨"Paper A", "https://example.com/a", "", "", "", 0⟩,
          ⟨"Paper B", "https://example.com/b", "", "", "", 0⟩] =
      .fatal "Rate limited by Google Scholar. Please wait a few minutes before trying again." :=
  ⟨rfl, rfl, rfl⟩

/-- C5: `SearchGoogleScholar` accepts exactly the first entry, in document
order, whose cleaned title (quotes stripped, trimmed, lowercased) contains
or is contained in the cleaned query title; the whole scan is the first
match of that predicate, so later candidates are never scored.  A result
titled `Attention Is All You Need` matches the query
`attention is all you need`, and the matched entry supplies URL and
citation count. -/
theorem claim_C5_first_title_match (title : String) (rs : List ScholarEntry) :
    scanResults title rs =
      (match rs.find? (matchesTitle title) with
        | some e => matchedScanState e
        | none => initScanState) ∧
    matchesTitle "attention is all you need"
      ⟨"Attention Is All You Need", [], [], []⟩ = true ∧
    SearchGoogleScholar "attention is all you need" []
        (.response 200 (.parsed
          ⟨[⟨"Attention Is All You Need", ["Cited by 42"], [], ["https://x"]⟩]⟩))
        (fun _ => .reqError) =
      .ok ("https://x", some 42, "", none) :=
  ⟨scanResults_eq_find title rs, by decide, rfl⟩

/-- C7 counterexample: on a parsed arXiv page without the abstract
container, `GetArxivSummary` returns an error - not an errorless absent
abstract as claimed. -/
theorem claim_C7_missing_block_is_error :
    GetArxivSummary (.response 200 (.parsed ⟨none⟩)) =
      .error "abstract not found on page" := rfl

/-- C7 amended: abstract extraction takes the text of the abstract block
with the descriptor sub-element removed (the result does not depend on the
descriptor text) and trims it; a missing block yields the
`abstract not found on page` error, which pipeline callers treat as
best-effort absence, leaving the paper unchanged. -/
theorem claim_C7_abstract_extraction (d d2 : Option String) (r : String) (p : Paper) :
    GetArxivSummary (.response 200 (.parsed ⟨some ⟨d, r⟩⟩)) = .ok (strTrim r) ∧
    GetArxivSummary (.response 200 (.parsed ⟨some ⟨d, r⟩⟩)) =
      GetArxivSummary (.response 200 (.parsed ⟨some ⟨d2, r⟩⟩)) ∧
    GetArxivSummary (.response 200 (.parsed ⟨none⟩)) =
      .error "abstract not found on page" ∧
    applySummary p (GetArxivSummary (.response 200 (.parsed ⟨none⟩))) = p :=
  ⟨rfl, rfl, rfl, rfl⟩

/-- C8 counterexample: `ConvertPDFtoAbsURL` is not a no-op on a non-arXiv
URL containing `/pdf/`, and it is not idempotent: a second `/pdf/` segment
is rewritten by the second application, and a doubled `.pdf` suffix leaves
a `.pdf` suffix after one application. -/
theorem claim_C8_not_noop_not_idempotent :
    ConvertPDFtoAbsURL "https://example.com/pdf/a.pdf" = "https://example.com/abs/a" ∧
    ConvertPDFtoAbsURL "https://example.com/pdf/a.pdf" ≠ "https://example.com/pdf/a.pdf" ∧
    ConvertPDFtoAbsURL (ConvertPDFtoAbsURL "https://arxiv.org/pdf/1.2/pdf/3.4") ≠
      ConvertPDFtoAbsURL "https://arxiv.org/pdf/1.2/pdf/3.4" ∧
    ConvertPDFtoAbsURL "https://arxiv.org/pdf/1.pdf.pdf" = "https://arxiv.org/abs/1.pdf" := by
  refine ⟨by decide, by decide, by decide, by decide⟩

/-- C8 amended: `ConvertPDFtoAbsURL` replaces the first `/pdf/` occurrence
with `/abs/` and strips one trailing `.pdf`; it is a no-op on every input
that contains no `/pdf/` and does not end in `.pdf`, and on a standard
arXiv PDF URL (one `/pdf/` segment, at most one trailing `.pdf`) it yields
the `/abs/` URL, on which a second application is the identity. -/
theorem claim_C8_convert_pdf (u : String)
    (h1 : containsList "/pdf/".data u.data = false)
    (h2 : ".pdf".data.isSuffixOf u.data = false) :
    ConvertPDFtoAbsURL u = u ∧
    ConvertPDFtoAbsURL "https://arxiv.org/pdf/1706.03762v5.pdf" =
      "https://arxiv.org/abs/1706.03762v5" ∧
    ConvertPDFtoAbsURL (ConvertPDFtoAbsURL "https://arxiv.org/pdf/1706.03762v5.pdf") =
      ConvertPDFtoAbsURL "https://arxiv.org/pdf/1706.03762v5.pdf" := by
  refine ⟨?_, by decide, by decide⟩
  rw [ConvertPDFtoAbsURL, replaceOnceList_of_not_contains _ _ _ h1,
    trimSuffixList_of_not_suffix _ _ h2, strMk_data]

/-- Witness for C8 at a concrete non-PDF URL. -/
theorem claim_C8_convert_pdf_witness :
    ConvertPDFtoAbsURL "https://aclanthology.org/2024.acl-long.245/" =
      "https://aclanthology.org/2024.acl-long.245/" :=
  (claim_C8_convert_pdf "https://aclanthology.org/2024.acl-long.245/"
    (by decide) (by decide)).1

/-- C10: `SearchGoogleScholar` returns a nil Go error on every path that is
not an HTTP 429: request-creation failure, network failure, any other
non-200 status, HTML-parse failure and the no-matching-result case all
return the constructed search URL with a nil citation pointer and an empty
abstract. -/
theorem claim_C10_search_never_errors (title : String) (authors : List String)
    (pageFetch : String → FetchResult ScholarPage) :
    SearchGoogleScholar title authors .reqError pageFetch =
      .ok (mkSearchURL title authors, none, "", none) ∧
    SearchGoogleScholar title authors .netError pageFetch =
      .ok (mkSearchURL title authors, none, "", none) ∧
    (∀ code body, code ≠ 429 → code ≠ 200 →
      SearchGoogleScholar title authors (.response code body) pageFetch =
        .ok (mkSearchURL title authors, none, "", none)) ∧
    SearchGoogleScholar title authors (.response 200 .failed) pageFetch =
      .ok (mkSearchURL title authors, none, "", none) ∧
    (∀ doc : ScholarDoc, doc.results.find? (matchesTitle title) = none →
      SearchGoogleScholar title authors (.response 200 (.parsed doc)) pageFetch =
        .ok (mkSearchURL title authors, none, "", none)) := by
  refine ⟨rfl, rfl, fun code body h429 h200 => ?_, rfl, fun doc hfind => ?_⟩
  · rw [SearchGoogleScholar.eq_def]
    simp [h429, h200]
  · rw [SearchGoogleScholar.eq_def]
    simp [scanResults_eq_find, hfind, initScanState]

/-- Witness for C10 at a concrete title, status and no-match document. -/
theorem claim_C10_search_never_errors_witness :
    SearchGoogleScholar "T" [] (.response 503 .failed) (fun _ => .reqError) =
      .ok (mkSearchURL "T" [], none, "", none) ∧
    SearchGoogleScholar "T" [] (.response 200 (.parsed ⟨[]⟩)) (fun _ => .reqError) =
      .ok (mkSearchURL "T" [], none, "", none) :=
  ⟨(claim_C10_search_never_errors "T" [] (fun _ => .reqError)).2.2.1 503 .failed
      (by decide) (by decide),
    (claim_C10_search_never_errors "T" [] (fun _ => .reqError)).2.2.2.2 ⟨[]⟩ rfl⟩

theorem splitSepAux_fuel (sep : List Char) (f1 : Nat) :
    ∀ f2 l, l.length ≤ f1 → l.length ≤ f2 →
      splitSepAux sep f1 l = splitSepAux sep f2 l := by
  induction f1 with
  | zero =>
    intro f2 l h1 _h2
    have hl : l = [] := List.length_eq_zero.mp (Nat.le_zero.mp h1)
    subst hl
    cases f2 <;> rfl
  | succ f ih =>
    intro f2 l h1 h2
    match l with
    | [] => cases f2 <;> rfl
    | c :: t =>
      match f2 with
      | g + 1 =>
        by_cases hc : sep.isPrefixOf (c :: t) ∧ sep ≠ []
        · have hsep : 1 ≤ sep.length := List.length_pos.mpr hc.2
          have hlen : ((c :: t).drop sep.length).length ≤ f := by
            simp only [List.length_drop, List.length_cons]
            simp only [List.length_cons] at h1
            omega
          have hlen2 : ((c :: t).drop sep.length).length ≤ g := by
            simp only [List.length_drop, List.length_cons]
            simp only [List.length_cons] at h2
            omega
          rw [splitSepAux, splitSepAux, if_pos hc, if_pos hc, ih g _ hlen hlen2]
        · have hlen : t.length ≤ f := by
            simp only [List.length_cons] at h1; omega
          have hlen2 : t.length ≤ g := by
            simp only [List.length_cons] at h2; omega
          rw [splitSepAux, splitSepAux, if_neg hc, if_neg hc, ih g t hlen hlen2]

theorem splitSepList_cons (sep : List Char) (c : Char) (t : List Char) :
    splitSepList sep (c :: t) =
      (if sep.isPrefixOf (c :: t) ∧ sep ≠ [] then
        [] :: splitSepList sep ((c :: t).drop sep.length)
      else
        match splitSepList sep t with
        | [] => [[c]]
        | h :: rest => (c :: h) :: rest) := by
  by_cases hc : sep.isPrefixOf (c :: t) ∧ sep ≠ []
  · have hsep : 1 ≤ sep.length := List.length_pos.mpr hc.2
    rw [splitSepList, splitSepList]
    simp only [List.length_cons]
    rw [splitSepAux, if_pos hc, if_pos hc]
    congr 1
    apply splitSepAux_fuel
    · simp only [List.length_drop, List.length_cons]; omega
    · exact Nat.le_refl _
  · rw [splitSepList, splitSepList]
    simp only [List.length_cons]
    rw [splitSepAux, if_neg hc, if_neg hc]
    rfl

theorem splitSepList_ne_nil (sep l : List Char) : splitSepList sep l ≠ [] := by
  match l with
  | [] => exact fun h => List.noConfusion h
  | c :: t =>
    rw [splitSepList_cons]
    by_cases hc : sep.isPrefixOf (c :: t) ∧ sep ≠ []
    · rw [if_pos hc]; exact fun h => List.noConfusion h
    · rw [if_neg hc]
      match splitSepList sep t with
      | [] => exact fun h => List.noConfusion h
      | h :: rest => exact fun h => List.noConfusion h

theorem isPrefixOf_append_self (l t : List Char) : l.isPrefixOf (l ++ t) = true := by
  induction l with
  | nil => simp
  | cons c cs ih =>
    show (c == c && cs.isPrefixOf (cs ++ t)) = true
    simp [ih]

theorem splitSepList_first_piece (sep a t : List Char) (hsep : sep ≠ [])
    (H : ∀ k, k < a.length → sep.isPrefixOf ((a ++ sep ++ t).drop k) = false) :
    splitSepList sep (a ++ sep ++ t) = a :: splitSepList sep t := by
  induction a with
  | nil =>
    simp only [List.nil_append]
    cases sep with
    | nil => exact absurd rfl hsep
    | cons s srest =>
      have hcons : (s :: srest) ++ t = s :: (srest ++ t) := rfl
      rw [hcons, splitSepList_cons, ← hcons,
        if_pos ⟨isPrefixOf_append_self (s :: srest) t, hsep⟩]
      congr 1
      rw [List.drop_left]
  | cons c a' ih =>
    have hshape : (c :: a') ++ sep ++ t = c :: (a' ++ sep ++ t) := by simp
    have h0 : sep.isPrefixOf (c :: (a' ++ sep ++ t)) = false := by
      have h := H 0 (by simp)
      rw [List.drop_zero, hshape] at h
      exact h
    have H' : ∀ k, k < a'.length → sep.isPrefixOf ((a' ++ sep ++ t).drop k) = false := by
      intro k hk
      have h := H (k + 1) (by simp only [List.length_cons]; omega)
      rw [hshape, List.drop_succ_cons] at h
      exact h
    have hneg : ¬(sep.isPrefixOf (c :: (a' ++ sep ++ t)) = true ∧ sep ≠ []) := by
      intro hcontra
      rw [h0] at hcontra
      exact Bool.false_ne_true hcontra.1
    rw [hshape, splitSepList_cons, if_neg hneg, ih H']

/-- C6 counterexample: the author-from-title heuristic splits the author
segment on every comma, so the claimed result for
`Smith, J. and Doe, A. - Some Paper` is impossible: the code yields
`["Smith", "J. and Doe", "A."]`, not `["Smith, J.", "Doe, A."]`. -/
theorem claim_C6_counterexample :
    extractAuthorsFromTitle "Smith, J. and Doe, A. - Some Paper" =
      ["Smith", "J. and Doe", "A."] ∧
    (["Smith", "J. and Doe", "A."] : List String) ≠ ["Smith, J.", "Doe, A."] :=
  ⟨by decide, by decide⟩

/-- C6 amended: for a title whose first `" - "` occurrence separates the
author segment from the rest, the heuristic processes exactly the segment
before that first occurrence (not the last): an `et al.` segment collapses
to one token with `et al.` removed; otherwise the segment is split on every
comma, each piece trimmed, a leading `and ` stripped from every piece, and
empty pieces dropped.  In particular
`Smith, J. and Doe, A. - Some Paper` yields `["Smith", "J. and Doe", "A."]`,
`Lee et al. - Some Paper` yields `["Lee"]`,
`Smith - Jones - Some Paper` yields `["Smith"]`, and a title without
`" - "` yields no authors. -/
theorem claim_C6_author_heuristic (a t : String)
    (H : ∀ k, k < a.data.length →
      (" - ".data).isPrefixOf ((a.data ++ " - ".data ++ t.data).drop k) = false) :
    extractAuthorsFromTitle (a ++ " - " ++ t) = segmentAuthors a.data ∧
    extractAuthorsFromTitle "Smith, J. and Doe, A. - Some Paper" =
      ["Smith", "J. and Doe", "A."] ∧
    extractAuthorsFromTitle "Lee et al. - Some Paper" = ["Lee"] ∧
    extractAuthorsFromTitle "Smith - Jones - Some Paper" = ["Smith"] ∧
    extractAuthorsFromTitle "and Smith, and Doe - T" = ["Smith", "Doe"] ∧
    extractAuthorsFromTitle "No Hyphen Title" = [] := by
  refine ⟨?_, by decide, by decide, by decide, by decide, by decide⟩
  have hdata : (a ++ " - " ++ t).data = a.data ++ " - ".data ++ t.data := rfl
  have hsplit : splitSepList " - ".data (a.data ++ " - ".data ++ t.data) =
      a.data :: splitSepList " - ".data t.data :=
    splitSepList_first_piece _ _ _ (by decide) H
  rw [extractAuthorsFromTitle, hdata, hsplit]
  match h : splitSepList " - ".data t.data with
  | [] => exact absurd h (splitSepList_ne_nil _ _)
  | p :: rest => rfl

/-- Witness for C6 at a concrete two-author title. -/
theorem claim_C6_author_heuristic_witness :
    extractAuthorsFromTitle ("Alice Smith" ++ " - " ++ "Great Paper") =
      segmentAuthors "Alice Smith".data :=
  (claim_C6_author_heuristic "Alice Smith" "Great Paper" (by decide)).1

theorem takeWhile_append_all (p : Char → Bool) (l₁ l₂ : List Char)
    (h : ∀ c ∈ l₁, p c = true) :
    (l₁ ++ l₂).takeWhile p = l₁ ++ l₂.takeWhile p := by
  induction l₁ with
  | nil => simp
  | cons c cs ih =>
    have hc : p c = true := h c (List.mem_cons_self c cs)
    simp only [List.cons_append, List.takeWhile_cons, hc, if_true]
    rw [ih (fun d hd => h d (List.mem_cons_of_mem c hd))]

theorem matchIdAt_abs_front (id rest : List Char) (hne : id ≠ [])
    (hall : ∀ c ∈ id, isIdChar c = true)
    (hrest : rest.takeWhile isIdChar = []) :
    matchIdAt (absPat ++ (id ++ rest)) = some id := by
  have hpre : absPat.isPrefixOf (absPat ++ (id ++ rest)) = true :=
    isPrefixOf_append_self _ _
  have hempty : id.isEmpty = false := by
    cases id with
    | nil => exact absurd rfl hne
    | cons c cs => rfl
  rw [matchIdAt, if_pos hpre]
  simp only [List.drop_left, takeWhile_append_all _ _ _ hall, hrest,
    List.append_nil, hempty]
  rfl

theorem matchIdAt_pdf_front (id rest : List Char) (hne : id ≠ [])
    (hall : ∀ c ∈ id, isIdChar c = true)
    (hrest : rest.takeWhile isIdChar = []) :
    matchIdAt (pdfPat ++ (id ++ rest)) = some id := by
  have habs : absPat.isPrefixOf (pdfPat ++ (id ++ rest)) = false := rfl
  have hpre : pdfPat.isPrefixOf (pdfPat ++ (id ++ rest)) = true :=
    isPrefixOf_append_self _ _
  have hempty : id.isEmpty = false := by
    cases id with
    | nil => exact absurd rfl hne
    | cons c cs => rfl
  rw [matchIdAt, if_neg (by simp [habs]), if_pos hpre]
  simp only [List.drop_left, takeWhile_append_all _ _ _ hall, hrest,
    List.append_nil, hempty]
  rfl

theorem scanArxivId_cons_of_match (c : Char) (t r : List Char)
    (h : matchIdAt (c :: t) = some r) : scanArxivId (c :: t) = some r := by
  rw [scanArxivId, h]

theorem scanArxivId_skip (pre X : List Char)
    (H : ∀ k, k < pre.length → matchIdAt ((pre ++ X).drop k) = none) :
    scanArxivId (pre ++ X) = scanArxivId X := by
  induction pre with
  | nil => simp
  | cons c pre' ih =>
    have h0 : matchIdAt (c :: (pre' ++ X)) = none := by
      have h := H 0 (by simp)
      rw [List.drop_zero] at h
      exact h
    rw [List.cons_append, scanArxivId, h0]
    exact ih (fun k hk => by
      have h := H (k + 1) (by simp only [List.length_cons]; omega)
      rw [List.cons_append, List.drop_succ_cons] at h
      exact h)

theorem scanArxivId_of_not_contains (l : List Char)
    (h1 : containsList absPat l = false) (h2 : containsList pdfPat l = false) :
    scanArxivId l = none := by
  induction l with
  | nil => rfl
  | cons c t ih =>
    obtain ⟨h1a, h1b⟩ := containsList_cons_false h1
    obtain ⟨h2a, h2b⟩ := containsList_cons_false h2
    have hm : matchIdAt (c :: t) = none := by
      rw [matchIdAt, if_neg (by simp [h1a]), if_neg (by simp [h2a])]
    rw [scanArxivId, hm]
    exact ih h1b h2b

/-- C9 counterexample: on `https://arxiv.org/abs/v2` the code returns
`v2` - a non-empty id that is not of the claimed shape (digits and dots
with an optional `vN` version suffix), because the regex character class
`[0-9v.]` admits `v` anywhere.  The claim, which allows only claim-shaped
ids or absence, is therefore false at this URL. -/
theorem claim_C9_counterexample :
    GetArxivID "https://arxiv.org/abs/v2" = "v2" ∧
    ("v2" : String) ≠ "" ∧
    ¬ claimArxivIdShape "v2" := by
  refine ⟨by decide, by decide, ?_⟩
  intro h
  rcases h with ⟨_, hall⟩ | ⟨base, n, heq, hbne, hball, _, _⟩
  · rcases hall 'v' (by decide) with h | h
    · exact absurd h (by decide)
    · exact absurd h (by decide)
  · have heq2 : ('v' :: '2' :: ([] : List Char)) = base ++ 'v' :: n := by
      rw [show ("v2" : String).data = ['v', '2'] from rfl] at heq
      exact heq
    cases base with
    | nil => exact hbne rfl
    | cons b bs =>
      simp only [List.cons_append, List.cons.injEq] at heq2
      obtain ⟨hb, _⟩ := heq2
      rcases hball b (List.mem_cons_self b bs) with h | h
      · rw [← hb] at h
        exact absurd h (by decide)
      · rw [← hb] at h
        exact absurd h (by decide)

/-- C9 amended: `GetArxivID` returns the greedy non-empty run of characters
from the class `[0-9v.]` that follows the leftmost occurrence of
`arxiv.org/abs/` or `arxiv.org/pdf/` (the `v` may occur anywhere in the
run, not only as a version suffix), and the empty string when the URL
contains neither literal; in particular `https://arxiv.org/abs/v2` yields
`v2`. -/
theorem claim_C9_arxiv_id (pre id rest u : String)
    (Habs : ∀ k, k < pre.data.length →
      matchIdAt ((pre.data ++ (absPat ++ (id.data ++ rest.data))).drop k) = none)
    (Hpdf : ∀ k, k < pre.data.length →
      matchIdAt ((pre.data ++ (pdfPat ++ (id.data ++ rest.data))).drop k) = none)
    (hne : id.data ≠ [])
    (hall : ∀ c ∈ id.data, isIdChar c = true)
    (hrest : rest.data.takeWhile isIdChar = []) 
    (h1 : containsList absPat u.data = false)
    (h2 : containsList pdfPat u.data = false) :
    GetArxivID (pre ++ "arxiv.org/abs/" ++ id ++ rest) = id ∧
    GetArxivID (pre ++ "arxiv.org/pdf/" ++ id ++ rest) = id ∧
    GetArxivID u = "" ∧
    GetArxivID "https://arxiv.org/abs/v2" = "v2" := by
  refine ⟨?_, ?_, ?_, by decide⟩
  · have hform : (pre ++ "arxiv.org/abs/" ++ id ++ rest).data =
        pre.data ++ (absPat ++ (id.data ++ rest.data)) := by
      show ((pre.data ++ absPat) ++ id.data) ++ rest.data = _
      simp [List.append_assoc]
    have hm : matchIdAt (absPat ++ (id.data ++ rest.data)) = some id.data :=
      matchIdAt_abs_front _ _ hne hall hrest
    have hcons : absPat ++ (id.data ++ rest.data) =
        'a' :: ("rxiv.org/abs/".data ++ (id.data ++ rest.data)) := rfl
    have hscan : scanArxivId (absPat ++ (id.data ++ rest.data)) = some id.data := by
      rw [hcons] at hm ⊢
      exact scanArxivId_cons_of_match _ _ _ hm
    rw [GetArxivID, hform, scanArxivId_skip _ _ Habs, hscan]
  · have hform : (pre ++ "arxiv.org/pdf/" ++ id ++ rest).data =
        pre.data ++ (pdfPat ++ (id.data ++ rest.data)) := by
      show ((pre.data ++ pdfPat) ++ id.data) ++ rest.data = _
      simp [List.append_assoc]
    have hm : matchIdAt (pdfPat ++ (id.data ++ rest.data)) = some id.data :=
      matchIdAt_pdf_front _ _ hne hall hrest
    have hcons : pdfPat ++ (id.data ++ rest.data) =
        'a' :: ("rxiv.org/pdf/".data ++ (id.data ++ rest.data)) := rfl
    have hscan : scanArxivId (pdfPat ++ (id.data ++ rest.data)) = some id.data := by
      rw [hcons] at hm ⊢
      exact scanArxivId_cons_of_match _ _ _ hm
    rw [GetArxivID, hform, scanArxivId_skip _ _ Hpdf, hscan]
  · rw [GetArxivID, scanArxivId_of_not_contains u.data h1 h2]

/-- Witness for C9 at a concrete abs URL, pdf URL and non-arXiv URL. -/
theorem claim_C9_arxiv_id_witness :
    GetArxivID ("https://" ++ "arxiv.org/abs/" ++ "1706.03762v2" ++ "?context=cs") =
      "1706.03762v2" ∧
    GetArxivID ("https://" ++ "arxiv.org/pdf/" ++ "1706.03762v2" ++ "?context=cs") =
      "1706.03762v2" ∧
    GetArxivID "https://example.com/paper" = "" := by
  obtain ⟨ha, hp, hu, _⟩ :=
    claim_C9_arxiv_id "https://" "1706.03762v2" "?context=cs" "https://example.com/paper"
      (by decide) (by decide) (by decide) (by decide) (by decide) (by decide) (by decide)
  exact ⟨ha, hp, hu⟩
